import Mathlib

/-!
Verification development for the query-building and type-system slice of a
statically-typed SQL expression engine (the `diesel` crate's text expression
methods together with the query/selection behavior exercised by its
integration test suite).

The embedding follows the source:
* `src/diesel/src/expression_methods/text_expression_methods.rs` provides the
  `TextExpressionMethods` trait (`concat`, `like`, `not_like`), each returning
  a `Grouped`-wrapped operator node, and the `TextOrNullableText` marker with
  exactly the two impls `Text` and `Nullable<Text>`.
* `src/diesel_tests/tests/select.rs` exercises statements: projections,
  filters, subselects used with `eq_any`, aggregate projections without
  `GROUP BY`, reserved-name quoting, and `FOR UPDATE` wait-policy modifiers.
Parts of the engine that the claims depend on but whose code is not in the
sampled slice (the operator type rules, SQL generation, and the executor) are
modelled from the specification; each such definition says so in its doc
comment.
-/

namespace Diesel

/-- Scalar SQL types. Mirrors `sql_types`: base tags plus a derived
`Nullable` wrapper (`Nullable<Text>` etc.). -/
inductive ScalarType : Type
  | integer : ScalarType
  | bigint : ScalarType
  | text : ScalarType
  | boolean : ScalarType
  | nullable : ScalarType → ScalarType
deriving DecidableEq, Repr

/-- A scalar type is nullable when it is wrapped in `Nullable`. -/
def ScalarType.isNullable : ScalarType → Bool
  | .nullable _ => true
  | _ => false

/-- Runtime SQL values as returned by a backend row. -/
inductive Value : Type
  | int : Int → Value
  | str : String → Value
  | bool : Bool → Value
  | null : Value
deriving DecidableEq, Repr

/-- Whether a runtime value inhabits a scalar type. `NULL` inhabits exactly
the nullable types; a non-null value inhabits a nullable type when it
inhabits the underlying type. -/
def valHasType : Value → ScalarType → Bool
  | .int _, .integer => true
  | .int _, .bigint => true
  | .str _, .text => true
  | .bool _, .boolean => true
  | .null, .nullable _ => true
  | .int n, .nullable t => valHasType (.int n) t
  | .str s, .nullable t => valHasType (.str s) t
  | .bool b, .nullable t => valHasType (.bool b) t
  | _, _ => false

/-- Marker capability from `text_expression_methods.rs` lines 144-147:
`impl TextOrNullableText for Text {}` and
`impl TextOrNullableText for Nullable<Text> {}` are the only impls. -/
def TextOrNullableText : ScalarType → Bool
  | .text => true
  | .nullable .text => true
  | _ => false

/-- Typed expression tree nodes: column handles and bound parameters are the
leaves; `concat`, `like`, `notLike`, `eqOp` are the operator nodes built by
the expression methods; `grouped` is the parenthesization wrapper
(`Grouped`), purely a rendering concern. -/
inductive Expr : Type
  | column : String → ScalarType → Expr
  | lit : Value → ScalarType → Expr
  | concat : Expr → Expr → Expr
  | like : Expr → Expr → Expr
  | notLike : Expr → Expr → Expr
  | eqOp : Expr → Expr → Expr
  | grouped : Expr → Expr
deriving DecidableEq, Repr

/-- Modelled from the spec: the operator type rules of §4.1 (the operator
definitions live outside the sampled slice). A node is well-typed exactly
when its operands agree with the operator's constraint, and then carries one
`ScalarType`: `Concat` over a Text-or-NullableText type yields that same
type (so the result is nullable exactly when the operands are); `Like`,
`NotLike` and `Eq` yield exactly `boolean`, never a nullable boolean;
`Grouped` is transparent. -/
def sqlType : Expr → Option ScalarType
  | .column _ ty => some ty
  | .lit _ ty => some ty
  | .concat l r =>
    match sqlType l, sqlType r with
    | some tl, some tr => if tl = tr ∧ TextOrNullableText tl then some tl else none
    | _, _ => none
  | .like l r =>
    match sqlType l, sqlType r with
    | some tl, some tr => if tl = tr ∧ TextOrNullableText tl then some .boolean else none
    | _, _ => none
  | .notLike l r =>
    match sqlType l, sqlType r with
    | some tl, some tr => if tl = tr ∧ TextOrNullableText tl then some .boolean else none
    | _, _ => none
  | .eqOp l r =>
    match sqlType l, sqlType r with
    | some tl, some tr => if tl = tr then some .boolean else none
    | _, _ => none
  | .grouped e => sqlType e

namespace TextExpressionMethods

/-- `TextExpressionMethods::concat` (source lines 59-65): available when
`Self::SqlType: TextOrNullableText` (the blanket impl, lines 149-154) and the
right operand is `AsExpression<Self::SqlType>`; both are construction-time
constraints, so the builder returns `none` when they fail. On success it
returns `Grouped(Concat::new(self, other.as_expression()))`. -/
def concat (self other : Expr) : Option Expr :=
  match sqlType self, sqlType other with
  | some tl, some tr =>
    if TextOrNullableText tl ∧ tr = tl then some (.grouped (.concat self other)) else none
  | _, _ => none

/-- `TextExpressionMethods::like` (source lines 95-101): same construction
constraints as `concat`; returns `Grouped(Like::new(self, other.as_expression()))`. -/
def like (self other : Expr) : Option Expr :=
  match sqlType self, sqlType other with
  | some tl, some tr =>
    if TextOrNullableText tl ∧ tr = tl then some (.grouped (.like self other)) else none
  | _, _ => none

/-- `TextExpressionMethods::not_like` (source lines 131-137): same
construction constraints; returns `Grouped(NotLike::new(self, other.as_expression()))`. -/
def not_like (self other : Expr) : Option Expr :=
  match sqlType self, sqlType other with
  | some tl, some tr =>
    if TextOrNullableText tl ∧ tr = tl then some (.grouped (.notLike self other)) else none
  | _, _ => none

/-- Modelled from the spec: `eq` from the generic expression methods (outside
the sampled slice), used by the tests as `name.eq("Sean")`. The right operand
must be coercible to the left operand's `ScalarType`; the node's type is the
boolean rule of §4.1. The grouping wrapper is not part of this claim set's
sources for `eq`, so the bare node is returned. -/
def eq (self other : Expr) : Option Expr :=
  match sqlType self, sqlType other with
  | some tl, some tr => if tr = tl then some (.eqOp self other) else none
  | _, _ => none

end TextExpressionMethods

/-- Modelled from the spec: SQL `LIKE` pattern matching as performed by the
backend (§4.2 documents it as backend behavior the core does not normalize;
case handling is the backend's and is not modelled). `%` matches any
sequence, `_` matches exactly one character, every other pattern character
matches itself. First argument is the pattern, second the candidate. -/
def likeMatchL : List Char → List Char → Bool
  | [], [] => true
  | '%' :: ps, [] => likeMatchL ps []
  | '%' :: ps, c :: cs => likeMatchL ps (c :: cs) || likeMatchL ('%' :: ps) cs
  | '_' :: ps, _ :: cs => likeMatchL ps cs
  | p :: ps, c :: cs => p = c && likeMatchL ps cs
  | _ :: _, [] => false
  | [], _ :: _ => false
termination_by p s => (p.length, s.length)

/-- String-level wrapper for `likeMatchL`. -/
def likeMatch (pattern value : String) : Bool :=
  likeMatchL pattern.data value.data

/-- An execution environment: the values of the columns in scope, keyed by
qualified column name. Rows are delivered by the backend; a column not in
scope reads as SQL `NULL`. -/
def Env : Type := String → Value

/-- Modelled from the spec: evaluation of an expression node against the
backend's row environment (§4.5; execution is delegated to the backend).
`none` is a runtime type mismatch — a decode/type error, distinct from the
legitimate SQL `NULL` value. SQL three-valued logic is used: any `NULL`
operand makes an operator's result `NULL`. -/
def eval (env : Env) : Expr → Option Value
  | .column nm _ => some (env nm)
  | .lit v _ => some v
  | .grouped e => eval env e
  | .concat l r => do
    let a ← eval env l
    let b ← eval env r
    match a, b with
    | .null, _ => some .null
    | _, .null => some .null
    | .str x, .str y => some (.str (x ++ y))
    | _, _ => none
  | .like l r => do
    let a ← eval env l
    let b ← eval env r
    match a, b with
    | .null, _ => some .null
    | _, .null => some .null
    | .str x, .str p => some (.bool (likeMatch p x))
    | _, _ => none
  | .notLike l r => do
    let a ← eval env l
    let b ← eval env r
    match a, b with
    | .null, _ => some .null
    | _, .null => some .null
    | .str x, .str p => some (.bool (!likeMatch p x))
    | _, _ => none
  | .eqOp l r => do
    let a ← eval env l
    let b ← eval env r
    match a, b with
    | .null, _ => some .null
    | _, .null => some .null
    | .int x, .int y => some (.bool (x = y))
    | .str x, .str y => some (.bool (x = y))
    | .bool x, .bool y => some (.bool (x = y))
    | _, _ => none

/-- A predicate holds of a row exactly when it evaluates to SQL `TRUE`
(`NULL` and `FALSE` both reject the row, as in SQL `WHERE`). -/
def evalBool (env : Env) (e : Expr) : Bool :=
  eval env e = some (.bool true)

/-- The column leaves of an expression, with their declared types. -/
def colsOf : Expr → List (String × ScalarType)
  | .column nm ty => [(nm, ty)]
  | .lit _ _ => []
  | .concat l r => colsOf l ++ colsOf r
  | .like l r => colsOf l ++ colsOf r
  | .notLike l r => colsOf l ++ colsOf r
  | .eqOp l r => colsOf l ++ colsOf r
  | .grouped e => colsOf e

/-- The bound-parameter leaves of an expression carry values inhabiting
their declared types (diesel's `AsExpression` conversions guarantee this at
construction). -/
def Expr.wf : Expr → Bool
  | .column _ _ => true
  | .lit v ty => valHasType v ty
  | .concat l r => l.wf && r.wf
  | .like l r => l.wf && r.wf
  | .notLike l r => l.wf && r.wf
  | .eqOp l r => l.wf && r.wf
  | .grouped e => e.wf

/-- An environment is well-typed for an expression when every column it
reads delivers a value of the column's declared type. -/
def EnvTyped (env : Env) (e : Expr) : Prop :=
  ∀ p ∈ colsOf e, valHasType (env p.1) p.2 = true

/-- Modelled from the spec: the SQL text an expression node lowers to
(§4.4; the generator is outside the sampled slice). Bound parameters render
as a placeholder; `Grouped` renders as explicit parentheses around its inner
node — it owns no semantics beyond forcing precedence in the generated
text. -/
def render : Expr → String
  | .column nm _ => nm
  | .lit _ _ => "?"
  | .concat l r => render l ++ " || " ++ render r
  | .like l r => render l ++ " LIKE " ++ render r
  | .notLike l r => render l ++ " NOT LIKE " ++ render r
  | .eqOp l r => render l ++ " = " ++ render r
  | .grouped e => "(" ++ render e ++ ")"

/-- The marker capability holds for exactly `Text` and `Nullable<Text>`,
matching the two impls in the source. -/
theorem TextOrNullableText_iff (t : ScalarType) :
    TextOrNullableText t = true ↔ t = .text ∨ t = .nullable .text := by
  cases t with
  | nullable u => cases u <;> simp [TextOrNullableText]
  | _ => simp [TextOrNullableText]

/-- A well-typed value of a Text-or-NullableText type is a string or SQL
`NULL`. -/
theorem val_of_textType (v : Value) (t : ScalarType)
    (ht : TextOrNullableText t = true) (hv : valHasType v t = true) :
    v = .null ∨ ∃ s, v = .str s := by
  rcases (TextOrNullableText_iff t).mp ht with h | h <;> subst h <;>
    cases v <;> simp_all [valHasType]

/-- Evaluating a well-formed expression of a Text-or-NullableText type in a
well-typed environment never signals a runtime type error: it yields a
string or SQL `NULL`. -/
theorem eval_of_textType (e : Expr) (t : ScalarType) (env : Env)
    (hty : sqlType e = some t) (ht : TextOrNullableText t = true)
    (hwf : e.wf = true) (henv : EnvTyped env e) :
    ∃ v, eval env e = some v ∧ (v = .null ∨ ∃ s, v = .str s) := by
  induction e generalizing t with
  | column nm ty =>
    refine ⟨env nm, rfl, ?_⟩
    have hv : valHasType (env nm) ty = true := henv (nm, ty) (by simp [colsOf])
    have : ty = t := by simpa [sqlType] using hty
    exact val_of_textType _ _ ht (this ▸ hv)
  | lit v ty =>
    refine ⟨v, rfl, ?_⟩
    have : ty = t := by simpa [sqlType] using hty
    exact val_of_textType _ _ ht (this ▸ (by simpa [Expr.wf] using hwf))
  | concat l r ihl ihr =>
    rcases hL : sqlType l with _ | tl
    · simp [sqlType, hL] at hty
    rcases hR : sqlType r with _ | tr
    · simp [sqlType, hL, hR] at hty
    simp only [sqlType, hL, hR] at hty
    split at hty
    case isTrue hc =>
      obtain ⟨heq, htl⟩ := hc
      obtain ⟨rfl⟩ : tl = t := by simpa using hty
      have hwl : l.wf = true := by simp [Expr.wf] at hwf; exact hwf.1
      have hwr : r.wf = true := by simp [Expr.wf] at hwf; exact hwf.2
      have hel : EnvTyped env l := fun p hp => henv p (by simp [colsOf]; exact Or.inl hp)
      have her : EnvTyped env r := fun p hp => henv p (by simp [colsOf]; exact Or.inr hp)
      obtain ⟨a, ha, hastr⟩ := ihl t hL htl hwl hel
      obtain ⟨b, hb, hbstr⟩ := ihr tr hR (heq ▸ htl) hwr her
      rcases hastr with rfl | ⟨x, rfl⟩
      · exact ⟨.null, by simp [eval, ha, hb], Or.inl rfl⟩
      · rcases hbstr with rfl | ⟨y, rfl⟩
        · exact ⟨.null, by simp [eval, ha, hb], Or.inl rfl⟩
        · exact ⟨.str (x ++ y), by simp [eval, ha, hb], Or.inr ⟨_, rfl⟩⟩
    case isFalse => simp at hty
  | like l r ihl ihr =>
    have : t = .boolean := by
      rcases hL : sqlType l with _ | tl <;> rcases hR : sqlType r with _ | tr <;>
        simp [sqlType, hL, hR] at hty <;> first
        | rfl
        | (rcases hty with ⟨_, h⟩; exact h.symm)
    subst this
    simp [TextOrNullableText] at ht
  | notLike l r ihl ihr =>
    have : t = .boolean := by
      rcases hL : sqlType l with _ | tl <;> rcases hR : sqlType r with _ | tr <;>
        simp [sqlType, hL, hR] at hty <;> first
        | rfl
        | (rcases hty with ⟨_, h⟩; exact h.symm)
    subst this
    simp [TextOrNullableText] at ht
  | eqOp l r ihl ihr =>
    have : t = .boolean := by
      rcases hL : sqlType l with _ | tl <;> rcases hR : sqlType r with _ | tr <;>
        simp [sqlType, hL, hR] at hty <;> first
        | rfl
        | (rcases hty with ⟨_, h⟩; exact h.symm)
    subst this
    simp [TextOrNullableText] at ht
  | grouped e ih =>
    obtain ⟨v, hv, hs⟩ := ih t (by simpa [sqlType] using hty) ht
      (by simpa [Expr.wf] using hwf) (fun p hp => henv p (by simpa [colsOf] using hp))
    exact ⟨v, by simpa [eval] using hv, hs⟩

/-- Inversion for the `concat` builder: it succeeds exactly when both
operands carry the same Text-or-NullableText type, and then returns the
`Grouped`-wrapped `Concat` node. -/
theorem concat_some_iff (l r e : Expr) :
    TextExpressionMethods.concat l r = some e ↔
    ∃ tl, sqlType l = some tl ∧ sqlType r = some tl ∧ TextOrNullableText tl = true ∧
      e = .grouped (.concat l r) := by
  unfold TextExpressionMethods.concat
  rcases hL : sqlType l with _ | tl <;> rcases hR : sqlType r with _ | tr <;> simp
  aesop

/-- Inversion for the `like` builder. -/
theorem like_some_iff (l r e : Expr) :
    TextExpressionMethods.like l r = some e ↔
    ∃ tl, sqlType l = some tl ∧ sqlType r = some tl ∧ TextOrNullableText tl = true ∧
      e = .grouped (.like l r) := by
  unfold TextExpressionMethods.like
  rcases hL : sqlType l with _ | tl <;> rcases hR : sqlType r with _ | tr <;> simp
  aesop

/-- Inversion for the `not_like` builder. -/
theorem not_like_some_iff (l r e : Expr) :
    TextExpressionMethods.not_like l r = some e ↔
    ∃ tl, sqlType l = some tl ∧ sqlType r = some tl ∧ TextOrNullableText tl = true ∧
      e = .grouped (.notLike l r) := by
  unfold TextExpressionMethods.not_like
  rcases hL : sqlType l with _ | tl <;> rcases hR : sqlType r with _ | tr <;> simp
  aesop

/-- Inversion for the `eq` builder. -/
theorem eq_some_iff (l r e : Expr) :
    TextExpressionMethods.eq l r = some e ↔
    ∃ tl, sqlType l = some tl ∧ sqlType r = some tl ∧ e = .eqOp l r := by
  unfold TextExpressionMethods.eq
  rcases hL : sqlType l with _ | tl <;> rcases hR : sqlType r with _ | tr <;> simp
  aesop

/-- C1: for every pair of Text-typed operands, the expression built by
`concat` has a non-nullable `Text` type when both operands are non-nullable
and a `Nullable<Text>` type when either operand is nullable; and the result
of concatenating an optional column with a literal is SQL `NULL` exactly
when the column was `NULL`. -/
theorem concat_nullability :
    (∀ (l r : Expr) (tl tr : ScalarType) (e : Expr),
        sqlType l = some tl → sqlType r = some tr →
        TextOrNullableText tl = true → TextOrNullableText tr = true →
        TextExpressionMethods.concat l r = some e →
        sqlType e =
          some (if tl.isNullable || tr.isNullable then ScalarType.nullable .text else .text))
    ∧ (∀ (nm s : String) (env : Env) (e : Expr),
        TextExpressionMethods.concat (.column nm (.nullable .text))
            (.lit (.str s) (.nullable .text)) = some e →
        valHasType (env nm) (.nullable .text) = true →
        (eval env e = some .null ↔ env nm = .null)) := by
  constructor
  · intro l r tl tr e hl hr htl htr hb
    obtain ⟨tl', hL, hR, hT, rfl⟩ := (concat_some_iff l r e).mp hb
    have h1 : tl' = tl := by rw [hl] at hL; exact (Option.some.inj hL).symm
    rw [h1] at hR
    have h2 : tr = tl := by rw [hr] at hR; exact Option.some.inj hR
    rcases (TextOrNullableText_iff tl).mp htl with h3 | h3 <;>
      simp [sqlType, hl, hr, h2, h3, TextOrNullableText, ScalarType.isNullable]
  · intro nm s env e hb henv
    obtain ⟨tl', hL, hR, hT, rfl⟩ :=
      (concat_some_iff (.column nm (.nullable .text)) (.lit (.str s) (.nullable .text)) e).mp hb
    cases hv : env nm <;> simp [valHasType, hv] at henv <;> simp [eval, hv]

/-- Witness for C1 at the doctest's shapes: `name.concat(" the Greatest")`
over non-nullable `Text` types as a non-nullable `Text`, and
`hair_color.concat("ish")` over `Nullable<Text>` evaluated on a row whose
`hair_color` is `NULL`. -/
theorem concat_nullability_witness :
    (sqlType (Expr.grouped (.concat (.column "users.name" .text)
        (.lit (.str " the Greatest") .text))) =
      some (if ScalarType.isNullable .text || ScalarType.isNullable .text then
        ScalarType.nullable .text else .text))
    ∧ (eval (fun _ => Value.null)
        (Expr.grouped (.concat (.column "users.hair_color" (.nullable .text))
          (.lit (.str "ish") (.nullable .text)))) = some .null ↔
        (fun _ => Value.null) "users.hair_color" = Value.null) :=
  ⟨concat_nullability.1 (.column "users.name" .text) (.lit (.str " the Greatest") .text)
      .text .text
      (Expr.grouped (.concat (.column "users.name" .text) (.lit (.str " the Greatest") .text)))
      (by decide) (by decide) (by decide) (by decide) (by decide),
    concat_nullability.2 "users.hair_color" "ish" (fun _ => Value.null)
      (Expr.grouped (.concat (.column "users.hair_color" (.nullable .text))
        (.lit (.str "ish") (.nullable .text))))
      (by decide) (by decide)⟩

/-- C3: the nodes built by `like`, `not_like` and `eq` carry exactly the
boolean `ScalarType`, never a nullable one, even when an operand's type is
nullable: operand nullability does not propagate into the static type of a
boolean-producing operator. -/
theorem boolean_operators_exact_boolean :
    ∀ (l r e : Expr),
      (TextExpressionMethods.like l r = some e →
        sqlType e = some .boolean ∧ ∀ t, sqlType e ≠ some (.nullable t))
      ∧ (TextExpressionMethods.not_like l r = some e →
        sqlType e = some .boolean ∧ ∀ t, sqlType e ≠ some (.nullable t))
      ∧ (TextExpressionMethods.eq l r = some e →
        sqlType e = some .boolean ∧ ∀ t, sqlType e ≠ some (.nullable t)) := by
  intro l r e
  refine ⟨fun hb => ?_, fun hb => ?_, fun hb => ?_⟩
  · obtain ⟨tl, hL, hR, hT, rfl⟩ := (like_some_iff l r e).mp hb
    simp [sqlType, hL, hR, hT]
  · obtain ⟨tl, hL, hR, hT, rfl⟩ := (not_like_some_iff l r e).mp hb
    simp [sqlType, hL, hR, hT]
  · obtain ⟨tl, hL, hR, rfl⟩ := (eq_some_iff l r e).mp hb
    simp [sqlType, hL, hR]

/-- Witness for C3 at nullable-Text operands: `hair_color.like(pattern)`,
`hair_color.not_like(pattern)` and `hair_color.eq(value)` over
`Nullable<Text>` all carry exactly the boolean type. -/
theorem boolean_operators_exact_boolean_witness :
    sqlType (Expr.grouped (.like (.column "users.hair_color" (.nullable .text))
        (.lit (.str "S%") (.nullable .text)))) = some .boolean
    ∧ sqlType (Expr.grouped (.notLike (.column "users.hair_color" (.nullable .text))
        (.lit (.str "S%") (.nullable .text)))) = some .boolean
    ∧ sqlType (Expr.eqOp (.column "users.hair_color" (.nullable .text))
        (.lit (.str "Green") (.nullable .text))) = some .boolean :=
  ⟨((boolean_operators_exact_boolean (.column "users.hair_color" (.nullable .text))
      (.lit (.str "S%") (.nullable .text))
      (Expr.grouped (.like (.column "users.hair_color" (.nullable .text))
        (.lit (.str "S%") (.nullable .text))))).1 (by decide)).1,
    ((boolean_operators_exact_boolean (.column "users.hair_color" (.nullable .text))
      (.lit (.str "S%") (.nullable .text))
      (Expr.grouped (.notLike (.column "users.hair_color" (.nullable .text))
        (.lit (.str "S%") (.nullable .text))))).2.1 (by decide)).1,
    ((boolean_operators_exact_boolean (.column "users.hair_color" (.nullable .text))
      (.lit (.str "Green") (.nullable .text))
      (Expr.eqOp (.column "users.hair_color" (.nullable .text))
        (.lit (.str "Green") (.nullable .text)))).2.2 (by decide)).1⟩

/-- C4: `concat`, `like` and `not_like` are governed by one generic
capability: the `TextOrNullableText` marker holds for exactly `Text` and
`Nullable<Text>`; each of the three builders succeeds on exactly the
operands whose left type has the capability and whose right operand is
coercible to the left operand's type (so all three are available on exactly
the same operands); and a successfully constructed node never signals a
type error at execution time in a well-typed environment. -/
theorem text_operators_generic :
    (∀ t, TextOrNullableText t = true ↔ t = .text ∨ t = .nullable .text)
    ∧ (∀ l r : Expr,
        ((TextExpressionMethods.concat l r).isSome = true ↔
          ∃ tl, sqlType l = some tl ∧ sqlType r = some tl ∧ TextOrNullableText tl = true)
        ∧ (TextExpressionMethods.like l r).isSome = (TextExpressionMethods.concat l r).isSome
        ∧ (TextExpressionMethods.not_like l r).isSome =
            (TextExpressionMethods.concat l r).isSome)
    ∧ (∀ (l r e : Expr) (env : Env), Expr.wf l = true → Expr.wf r = true →
        EnvTyped env l → EnvTyped env r →
        (TextExpressionMethods.concat l r = some e ∨
          TextExpressionMethods.like l r = some e ∨
          TextExpressionMethods.not_like l r = some e) →
        (eval env e).isSome = true) := by
  refine ⟨TextOrNullableText_iff, fun l r => ⟨?_, ?_, ?_⟩, ?_⟩
  · constructor
    · intro h
      obtain ⟨e, he⟩ := Option.isSome_iff_exists.mp h
      obtain ⟨tl, hL, hR, hT, -⟩ := (concat_some_iff l r e).mp he
      exact ⟨tl, hL, hR, hT⟩
    · rintro ⟨tl, hL, hR, hT⟩
      have := (concat_some_iff l r (.grouped (.concat l r))).mpr ⟨tl, hL, hR, hT, rfl⟩
      simp [this]
  · rcases hL : sqlType l with _ | tl <;> rcases hR : sqlType r with _ | tr <;>
      simp only [TextExpressionMethods.like, TextExpressionMethods.concat, hL, hR] <;>
      try rfl
    split <;> simp
  · rcases hL : sqlType l with _ | tl <;> rcases hR : sqlType r with _ | tr <;>
      simp only [TextExpressionMethods.not_like, TextExpressionMethods.concat, hL, hR] <;>
      try rfl
    split <;> simp
  · intro l r e env hwl hwr hel her hd
    rcases hd with hb | hb | hb
    · obtain ⟨tl, hL, hR, hT, rfl⟩ := (concat_some_iff l r e).mp hb
      obtain ⟨a, ha, has⟩ := eval_of_textType l tl env hL hT hwl hel
      obtain ⟨b, hbv, hbs⟩ := eval_of_textType r tl env hR hT hwr her
      rcases has with rfl | ⟨x, rfl⟩ <;> rcases hbs with rfl | ⟨y, rfl⟩ <;>
        simp [eval, ha, hbv]
    · obtain ⟨tl, hL, hR, hT, rfl⟩ := (like_some_iff l r e).mp hb
      obtain ⟨a, ha, has⟩ := eval_of_textType l tl env hL hT hwl hel
      obtain ⟨b, hbv, hbs⟩ := eval_of_textType r tl env hR hT hwr her
      rcases has with rfl | ⟨x, rfl⟩ <;> rcases hbs with rfl | ⟨y, rfl⟩ <;>
        simp [eval, ha, hbv]
    · obtain ⟨tl, hL, hR, hT, rfl⟩ := (not_like_some_iff l r e).mp hb
      obtain ⟨a, ha, has⟩ := eval_of_textType l tl env hL hT hwl hel
      obtain ⟨b, hbv, hbs⟩ := eval_of_textType r tl env hR hT hwr her
      rcases has with rfl | ⟨x, rfl⟩ <;> rcases hbs with rfl | ⟨y, rfl⟩ <;>
        simp [eval, ha, hbv]

/-- Witness for C4: `name.concat("!")` over `Text` evaluates without a
runtime type error on a row where `name` is `"Sean"`. -/
theorem text_operators_generic_witness :
    (eval (fun _ => Value.str "Sean")
        (Expr.grouped (.concat (.column "users.name" .text)
          (.lit (.str "!") .text)))).isSome = true :=
  text_operators_generic.2.2 (.column "users.name" .text) (.lit (.str "!") .text)
    (Expr.grouped (.concat (.column "users.name" .text) (.lit (.str "!") .text)))
    (fun _ => Value.str "Sean") (by decide) (by decide)
    (fun p hp => by simp [colsOf] at hp; subst hp; decide)
    (fun p hp => by simp [colsOf] at hp)
    (Or.inl (by decide))

/-- C10: every node returned by `concat`, `like` or `not_like` is wrapped
in the `Grouped` parenthesization wrapper, so the SQL rendered for it is
explicitly parenthesized; because any enclosing node renders this text
verbatim, the parentheses survive every nesting context. -/
theorem text_operators_grouped :
    ∀ l r e : Expr,
      (TextExpressionMethods.concat l r = some e ∨
        TextExpressionMethods.like l r = some e ∨
        TextExpressionMethods.not_like l r = some e) →
      ∃ inner, e = .grouped inner ∧ render e = "(" ++ render inner ++ ")" := by
  intro l r e hd
  rcases hd with hb | hb | hb
  · obtain ⟨tl, -, -, -, rfl⟩ := (concat_some_iff l r e).mp hb
    exact ⟨_, rfl, rfl⟩
  · obtain ⟨tl, -, -, -, rfl⟩ := (like_some_iff l r e).mp hb
    exact ⟨_, rfl, rfl⟩
  · obtain ⟨tl, -, -, -, rfl⟩ := (not_like_some_iff l r e).mp hb
    exact ⟨_, rfl, rfl⟩

/-- Witness for C10: the node built by `name.like("S%")` is a `Grouped`
node and renders parenthesized. -/
theorem text_operators_grouped_witness :
    ∃ inner,
      Expr.grouped (.like (.column "users.name" .text) (.lit (.str "S%") .text)) =
        .grouped inner ∧
      render (Expr.grouped (.like (.column "users.name" .text)
        (.lit (.str "S%") .text))) = "(" ++ render inner ++ ")" :=
  text_operators_grouped (.column "users.name" .text) (.lit (.str "S%") .text)
    (Expr.grouped (.like (.column "users.name" .text) (.lit (.str "S%") .text)))
    (Or.inr (Or.inl (by decide)))

/-- The `users.name` column handle of the test schema (`Text`, not null). -/
def nameColumn : Expr := .column "users.name" .text

/-- A text literal bound parameter. -/
def strLit (s : String) : Expr := .lit (.str s) .text

/-- The row environment delivering a single non-null `users.name` value. -/
def nameEnv (v : String) : Env := fun k => if k = "users.name" then .str v else .null

/-- The names selected by `filter(name.like(pattern))` from a set of
non-null name values: the builder constructs the node; the backend keeps
the rows on which it evaluates to SQL `TRUE`. -/
def likeFilter (p : String) (rows : List String) : List String :=
  match TextExpressionMethods.like nameColumn (strLit p) with
  | some e => rows.filter (fun v => evalBool (nameEnv v) e)
  | none => []

/-- The names selected by `filter(name.not_like(pattern))`. -/
def notLikeFilter (p : String) (rows : List String) : List String :=
  match TextExpressionMethods.not_like nameColumn (strLit p) with
  | some e => rows.filter (fun v => evalBool (nameEnv v) e)
  | none => []

/-- The `like` filter keeps exactly the names matching the pattern. -/
theorem likeFilter_eq (p : String) (rows : List String) :
    likeFilter p rows = rows.filter (fun v => likeMatch p v) := by
  have hbuild : TextExpressionMethods.like nameColumn (strLit p) =
      some (.grouped (.like nameColumn (strLit p))) := by
    simp [TextExpressionMethods.like, nameColumn, strLit, sqlType, TextOrNullableText]
  rw [likeFilter, hbuild]
  dsimp only
  congr 1
  funext v
  simp [evalBool, eval, nameEnv, nameColumn, strLit]

/-- The `not_like` filter keeps exactly the names not matching the pattern. -/
theorem notLikeFilter_eq (p : String) (rows : List String) :
    notLikeFilter p rows = rows.filter (fun v => !likeMatch p v) := by
  have hbuild : TextExpressionMethods.not_like nameColumn (strLit p) =
      some (.grouped (.notLike nameColumn (strLit p))) := by
    simp [TextExpressionMethods.not_like, nameColumn, strLit, sqlType, TextOrNullableText]
  rw [notLikeFilter, hbuild]
  dsimp only
  congr 1
  funext v
  simp [evalBool, eval, nameEnv, nameColumn, strLit]

/-- C2: for every set of non-null text rows and every pattern, the rows
selected by `filter(name.like(pattern))` and by
`filter(name.not_like(pattern))` partition the set disjointly and
exhaustively: their union is the original set and their intersection is
empty. -/
theorem like_not_like_partition :
    ∀ (p : String) (rows : List String),
      (∀ v, v ∈ rows ↔ (v ∈ likeFilter p rows ∨ v ∈ notLikeFilter p rows))
      ∧ (∀ v, ¬(v ∈ likeFilter p rows ∧ v ∈ notLikeFilter p rows)) := by
  intro p rows
  constructor
  · intro v
    rw [likeFilter_eq, notLikeFilter_eq]
    simp only [List.mem_filter]
    cases h : likeMatch p v <;> simp [h]
  · intro v
    rw [likeFilter_eq, notLikeFilter_eq]
    simp only [List.mem_filter]
    rintro ⟨⟨-, h1⟩, ⟨-, h2⟩⟩
    rw [h1] at h2
    simp at h2

/-- Witness for C2 on the test data: {"Sean","Tess"} with pattern "S%". -/
theorem like_not_like_partition_witness :
    ("Sean" ∈ ["Sean", "Tess"] ↔
      ("Sean" ∈ likeFilter "S%" ["Sean", "Tess"] ∨
        "Sean" ∈ notLikeFilter "S%" ["Sean", "Tess"]))
    ∧ ¬("Sean" ∈ likeFilter "S%" ["Sean", "Tess"] ∧
        "Sean" ∈ notLikeFilter "S%" ["Sean", "Tess"]) :=
  ⟨(like_not_like_partition "S%" ["Sean", "Tess"]).1 "Sean",
    (like_not_like_partition "S%" ["Sean", "Tess"]).2 "Sean"⟩

/-- A returned row: an association of qualified column names to values. -/
abbrev Row : Type := List (String × Value)

/-- Reading a column from a row; a column not present reads as SQL `NULL`. -/
def lookupRow (row : Row) (k : String) : Value :=
  match row.find? (fun p => p.1 == k) with
  | some p => p.2
  | none => .null

/-- The environment a row provides to expression evaluation. -/
def rowEnv (row : Row) : Env := fun k => lookupRow row k

/-- Modelled from the spec: a statement whose projection is a single column,
usable as the operand of `eq_any` (§4.3's subselect contract; the statement
lowering and executor are outside the sampled slice). Its predicate may
reference columns of the enclosing statement (a correlated subselect), so it
need not be independently executable. -/
structure SubSelect where
  source : List Row
  pred : Expr
  proj : Expr

/-- The values produced by a subselect for one outer row: the inner rows
satisfying the predicate (evaluated with the outer row's columns also in
scope, inner columns shadowing), projected onto the single column. -/
def SubSelect.valuesFor (s : SubSelect) (outer : Row) : List Value :=
  (s.source.filter (fun i => evalBool (rowEnv (i ++ outer)) s.pred)).filterMap
    (fun i => eval (rowEnv (i ++ outer)) s.proj)

/-- SQL equality between two values under three-valued logic: `NULL` is
never equal to anything, including `NULL`. -/
def valueEqNonNull : Value → Value → Bool
  | .null, _ => false
  | _, .null => false
  | a, b => a = b

theorem valueEqNonNull_iff (a b : Value) :
    valueEqNonNull a b = true ↔ a = b ∧ a ≠ .null := by
  cases a <;> cases b <;> simp [valueEqNonNull]

/-- Modelled from the spec: the rows kept by `filter(col.eq_any(subselect))`
(§4.3; the executor is outside the sampled slice): an outer row is kept when
its tested column value equals some value of the subselect's result for that
row. -/
def eqAnyFilter (outer : List Row) (col : Expr) (s : SubSelect) : List Row :=
  outer.filter (fun o =>
    match eval (rowEnv o) col with
    | some v => (s.valuesFor o).any (fun w => valueEqNonNull v w)
    | none => false)

/-- Membership in a subselect's value list. -/
theorem mem_valuesFor (s : SubSelect) (o : Row) (w : Value) :
    w ∈ s.valuesFor o ↔ ∃ i ∈ s.source, evalBool (rowEnv (i ++ o)) s.pred = true ∧
      eval (rowEnv (i ++ o)) s.proj = some w := by
  simp [SubSelect.valuesFor, List.mem_filterMap, List.mem_filter, and_assoc]

/-- C5: the result of filtering by `col.eq_any(subselect)` is exactly the
outer rows whose tested column value equals some row of the subselect — for
every subselect with a single-column projection, including correlated ones
whose predicate references a column of the outer statement (which would not
be independently executable); and on the test's correlated subselect
(`posts.filter(posts::title.eq(users::name)).select(posts::user_id)` fed to
`users::id.eq_any`), exactly the user whose name titles one of their posts
is returned. -/
theorem eq_any_subselect :
    (∀ (outer : List Row) (col : Expr) (s : SubSelect) (o : Row),
      o ∈ eqAnyFilter outer col s ↔
        o ∈ outer ∧ ∃ v, eval (rowEnv o) col = some v ∧ v ≠ .null ∧
          ∃ i ∈ s.source, evalBool (rowEnv (i ++ o)) s.pred = true ∧
            eval (rowEnv (i ++ o)) s.proj = some v)
    ∧ eqAnyFilter
        [[("users.id", .int 1), ("users.name", .str "Sean")],
          [("users.id", .int 2), ("users.name", .str "Tess")]]
        (.column "users.id" .integer)
        ⟨[[("posts.user_id", .int 2), ("posts.title", .str "Tess")],
            [("posts.user_id", .int 1), ("posts.title", .str "Hi")]],
          .eqOp (.column "posts.title" .text) (.column "users.name" .text),
          .column "posts.user_id" .integer⟩ =
      [[("users.id", .int 2), ("users.name", .str "Tess")]] := by
  constructor
  · intro outer col s o
    simp only [eqAnyFilter, List.mem_filter]
    refine and_congr_right fun ho => ?_
    cases hcol : eval (rowEnv o) col with
    | none => simp
    | some v =>
      simp only [List.any_eq_true, mem_valuesFor, valueEqNonNull_iff]
      constructor
      · rintro ⟨w, ⟨i, hi, hp, hw⟩, rfl, hnn⟩
        exact ⟨v, rfl, hnn, i, hi, hp, hw⟩
      · rintro ⟨v', hv', hnn, i, hi, hp, hw⟩
        obtain rfl : v = v' := Option.some.inj hv'
        exact ⟨v, ⟨i, hi, hp, hw⟩, rfl, hnn⟩
  · decide

/-- Witness for C5 on a one-row instance: the single outer row is kept
because the subselect produces its tested value. -/
theorem eq_any_subselect_witness :
    [("t.a", Value.int 1)] ∈
        eqAnyFilter [[("t.a", Value.int 1)]] (.column "t.a" .integer)
          ⟨[[("s.b", Value.int 1)]], .lit (.bool true) .boolean,
            .column "s.b" .integer⟩ ↔
      [("t.a", Value.int 1)] ∈ [[("t.a", Value.int 1)]] ∧
        ∃ v, eval (rowEnv [("t.a", Value.int 1)]) (.column "t.a" .integer) = some v ∧
          v ≠ .null ∧
          ∃ i ∈ [[("s.b", Value.int 1)]],
            evalBool (rowEnv (i ++ [("t.a", Value.int 1)]))
                (.lit (.bool true) .boolean) = true ∧
              eval (rowEnv (i ++ [("t.a", Value.int 1)]))
                (.column "s.b" .integer) = some v :=
  eq_any_subselect.1 [[("t.a", Value.int 1)]] (.column "t.a" .integer)
    ⟨[[("s.b", Value.int 1)]], .lit (.bool true) .boolean, .column "s.b" .integer⟩
    [("t.a", Value.int 1)]

/-- A table's contents at one point in time. -/
abbrev Table : Type := List Row

/-- The rows of a table matching a statement's optional predicate. -/
def matching (pred : Option Expr) (t : Table) : List Row :=
  match pred with
  | none => t
  | some p => t.filter (fun r => evalBool (rowEnv r) p)

/-- Modelled from the spec: a built `select COUNT(*)` statement value with
an optional filter (§4.3; the executor is outside the sampled slice). The
statement is immutable data; running it takes the table state as an
argument, so execution can depend on nothing else. -/
structure CountStatement where
  pred : Option Expr

/-- Modelled from the spec: executing the count statement against the
table's state at execution time (§4.5). -/
def CountStatement.run (s : CountStatement) (t : Table) : Int :=
  ((matching s.pred t).length : Int)

/-- An intervening `INSERT` between two executions. -/
def insertRow (t : Table) (r : Row) : Table := t ++ [r]

/-- C6: a statement value built once and executed again after an
intervening insert reflects that insert: re-running the very same
`CountStatement` value on the post-insert state counts the new row (when it
matches the statement's predicate), so no result is cached or memoized
across executions — execution depends only on the table state passed at
execution time. -/
theorem statement_not_cached :
    ∀ (s : CountStatement) (t : Table) (r : Row),
      (s.pred = none → s.run (insertRow t r) = s.run t + 1)
      ∧ (∀ p, s.pred = some p → evalBool (rowEnv r) p = true →
          s.run (insertRow t r) = s.run t + 1)
      ∧ (∀ p, s.pred = some p → evalBool (rowEnv r) p = false →
          s.run (insertRow t r) = s.run t) := by
  intro s t r
  refine ⟨fun h => ?_, fun p hp hm => ?_, fun p hp hm => ?_⟩
  · simp [CountStatement.run, matching, h, insertRow]
  · simp [CountStatement.run, matching, hp, insertRow, List.filter_append, hm]
  · simp [CountStatement.run, matching, hp, insertRow, List.filter_append, hm]

/-- Witness for C6 on the test's data: `COUNT(*)` over {Sean, Tess} after
inserting Jim is the old count plus one. -/
theorem statement_not_cached_witness :
    CountStatement.run ⟨none⟩
        (insertRow [[("users.name", Value.str "Sean")], [("users.name", Value.str "Tess")]]
          [("users.name", Value.str "Jim")]) =
      CountStatement.run ⟨none⟩
        [[("users.name", Value.str "Sean")], [("users.name", Value.str "Tess")]] + 1 :=
  (statement_not_cached ⟨none⟩
    [[("users.name", Value.str "Sean")], [("users.name", Value.str "Tess")]]
    [("users.name", Value.str "Jim")]).1 rfl

/-- One entry of a projection list: a plain (non-aggregate) expression, or
one of the aggregate expressions used by the tests (`count_star()`,
`max(column)`). -/
inductive ProjItem : Type
  | item : Expr → ProjItem
  | countStar : ProjItem
  | maxOf : Expr → ProjItem
deriving DecidableEq, Repr

/-- Whether a projection entry is an aggregate expression. -/
def ProjItem.isAggregate : ProjItem → Bool
  | .item _ => false
  | .countStar => true
  | .maxOf _ => true

/-- Whether a projection entry's expressions are well-typed. -/
def ProjItem.wellTyped : ProjItem → Bool
  | .item e => (sqlType e).isSome
  | .countStar => true
  | .maxOf e => (sqlType e).isSome

/-- A built select statement with a projection list and optional filter. -/
structure SelectStatement where
  proj : List ProjItem
  pred : Option Expr

/-- The query builder's construction check for a projection: each entry must
be well-typed, but — per §4.3's aggregate projection rule — no grouping
homogeneity is imposed, so mixing aggregate and non-aggregate entries is
accepted. -/
def mkSelect (proj : List ProjItem) (pred : Option Expr) : Option SelectStatement :=
  if proj.all ProjItem.wellTyped then some ⟨proj, pred⟩ else none

/-- Modelled from the spec: SQL `MAX` over the values of a column, ignoring
`NULL`s; `NULL` on an empty set (§4.5; the executor is outside the sampled
slice). -/
def maxValue (vs : List Value) : Value :=
  vs.foldl
    (fun acc v =>
      match acc, v with
      | acc, .null => acc
      | .null, .str s => .str s
      | .str a, .str b => .str (max a b)
      | .null, .int n => .int n
      | .int a, .int b => .int (max a b)
      | acc, _ => acc)
    .null

/-- The value an aggregate-mode projection entry produces over the full
matching row set (a non-aggregate entry takes its value from the first
matching row, mirroring the permissive dialect behavior §4.3 documents). -/
def evalProjItem (rows : List Row) : ProjItem → Value
  | .countStar => .int rows.length
  | .maxOf e => maxValue (rows.filterMap (fun r => eval (rowEnv r) e))
  | .item e =>
    match rows with
    | [] => .null
    | r :: _ => (eval (rowEnv r) e).getD .null

/-- Modelled from the spec: executing a select statement (§4.5). With no
grouping, a projection containing any aggregate entry collapses the matching
set into exactly one row; otherwise one row per match is returned. -/
def SelectStatement.run (s : SelectStatement) (t : Table) : List (List Value) :=
  let rows := matching s.pred t
  if s.proj.any ProjItem.isAggregate then [s.proj.map (evalProjItem rows)]
  else rows.map (fun r => s.proj.map (fun i => evalProjItem [r] i))

/-- C7: a projection list mixing a non-aggregate expression with the
aggregate expressions `count_star()` and `max(column)` and no grouping is
accepted by the query builder, and executing the built statement returns
exactly one row whose aggregates are computed over the full matching set. -/
theorem aggregate_mixed_projection :
    ∀ (e m : Expr) (pred : Option Expr) (t : Table),
      (sqlType e).isSome = true → (sqlType m).isSome = true →
      ∃ s, mkSelect [.item e, .countStar, .maxOf m] pred = some s ∧
        s.run t =
          [[evalProjItem (matching pred t) (.item e),
            .int (matching pred t).length,
            maxValue ((matching pred t).filterMap (fun r => eval (rowEnv r) m))]] ∧
        (s.run t).length = 1 := by
  intro e m pred t he hm
  refine ⟨⟨[.item e, .countStar, .maxOf m], pred⟩, ?_, ?_, ?_⟩
  · simp [mkSelect, ProjItem.wellTyped, he, hm]
  · simp [SelectStatement.run, ProjItem.isAggregate, evalProjItem]
  · simp [SelectStatement.run, ProjItem.isAggregate]

/-- Witness for C7 on the test's data: selecting
`(name, count_star(), max(name))` from {Sean, Tess} yields the single row
`(Sean, 2, Tess)`. -/
theorem aggregate_mixed_projection_witness :
    ∃ s,
      mkSelect [.item (.column "users.name" .text), .countStar,
          .maxOf (.column "users.name" .text)] none = some s ∧
      s.run [[("users.name", Value.str "Sean")], [("users.name", Value.str "Tess")]] =
        [[evalProjItem
            (matching none
              [[("users.name", Value.str "Sean")], [("users.name", Value.str "Tess")]])
            (.item (.column "users.name" .text)),
          .int (matching none
            [[("users.name", Value.str "Sean")], [("users.name", Value.str "Tess")]]).length,
          maxValue ((matching none
              [[("users.name", Value.str "Sean")], [("users.name", Value.str "Tess")]]).filterMap
            (fun r => eval (rowEnv r) (.column "users.name" .text)))]] ∧
      (s.run [[("users.name", Value.str "Sean")],
        [("users.name", Value.str "Tess")]]).length = 1 :=
  aggregate_mixed_projection (.column "users.name" .text) (.column "users.name" .text) none
    [[("users.name", Value.str "Sean")], [("users.name", Value.str "Tess")]]
    (by decide) (by decide)

/-- Modelled from the spec: SQL reserved words the quoting rule of §4.4 must
protect (the test uses a table named `select` with a column named `join`). -/
def reservedWords : List String :=
  ["select", "join", "from", "where", "insert", "update", "order", "group", "table"]

/-- Doubling every double-quote character, the escaping step of identifier
quoting. -/
def escapeL : List Char → List Char
  | [] => []
  | c :: cs => if c = '"' then '"' :: '"' :: escapeL cs else c :: escapeL cs

/-- Modelled from the spec: the generator's identifier quoting (§4.4; the
generator is outside the sampled slice): wrap in double quotes, doubling any
embedded double quote — as in the test's generated
`INSERT INTO "select" ("join") ...`. -/
def quoteIdent (s : String) : String := ⟨'"' :: (escapeL s.data ++ ['"'])⟩

/-- The backend's scan of a quoted identifier body: a doubled quote is a
literal quote, a single quote closes the identifier (trailing characters are
a syntax error), and an unterminated identifier is a syntax error. -/
def scanQuoted : List Char → Option (List Char)
  | [] => none
  | c :: cs =>
    if c = '"' then
      match cs with
      | '"' :: cs2 => (scanQuoted cs2).map (fun l => '"' :: l)
      | [] => some []
      | _ :: _ => none
    else (scanQuoted cs).map (fun l => c :: l)

/-- Modelled from the spec: how the backend reads an identifier token of the
generated SQL: a quoted token is unescaped; a bare token is only an
identifier when it is not a reserved word. -/
def parseIdent (s : String) : Option String :=
  match s.data with
  | '"' :: rest => (scanQuoted rest).map (fun l => ⟨l⟩)
  | _ => if s ∈ reservedWords then none else some s

/-- Scanning the escaped body followed by the closing quote recovers the
original characters. -/
theorem scanQuoted_escape (l : List Char) :
    scanQuoted (escapeL l ++ ['"']) = some l := by
  induction l with
  | nil => rfl
  | cons c cs ih =>
    by_cases hc : c = '"'
    · subst hc
      simp [escapeL, scanQuoted, ih]
    · rw [escapeL]
      simp only [if_neg hc, List.cons_append]
      rw [scanQuoted.eq_def]
      simp [if_neg hc, ih]

/-- Quoting then reading an identifier is the identity, for every
identifier. -/
theorem parseIdent_quoteIdent (s : String) : parseIdent (quoteIdent s) = some s := by
  simp [parseIdent, quoteIdent, scanQuoted_escape]

/-- A backend database: tables keyed by their actual (unquoted) name. -/
abbrev Db : Type := List (String × List Row)

/-- Modelled from the spec: executing a generated `INSERT INTO <ident> ...`:
the backend reads the identifier token the generator rendered, failing on a
syntax error, then stores the rows under the actual table name. -/
def execInsert (db : Db) (renderedName : String) (rows : List Row) : Option Db :=
  (parseIdent renderedName).map (fun tbl => (tbl, rows) :: db)

/-- Modelled from the spec: executing a generated `SELECT * FROM <ident>`:
the backend reads the identifier token, then returns the stored rows. -/
def execSelectAll (db : Db) (renderedName : String) : Option (List Row) :=
  (parseIdent renderedName).bind
    (fun tbl => (db.find? (fun p => p.1 == tbl)).map (fun p => p.2))

/-- C8: a bare reserved word is not a usable identifier, but for every table
name — reserved words included — the generator's quoted identifier lets an
insert followed by a select succeed and round-trips the rows unchanged. -/
theorem reserved_names_quoted_roundtrip :
    ∀ (tbl : String) (rows : List Row) (db : Db),
      (tbl ∈ reservedWords → parseIdent tbl = none)
      ∧ ∃ db2, execInsert db (quoteIdent tbl) rows = some db2 ∧
          execSelectAll db2 (quoteIdent tbl) = some rows := by
  intro tbl rows db
  constructor
  · intro h
    fin_cases h <;> rfl
  · refine ⟨(tbl, rows) :: db, ?_, ?_⟩
    · simp [execInsert, parseIdent_quoteIdent]
    · simp [execSelectAll, parseIdent_quoteIdent, List.find?]

/-- Witness for C8 at the test's table name `select`: the bare keyword is
rejected, while the quoted form inserts and selects the rows back
unchanged. -/
theorem reserved_names_quoted_roundtrip_witness :
    parseIdent "select" = none
    ∧ ∃ db2,
        execInsert [] (quoteIdent "select") [[("select.join", Value.int 1)]] = some db2 ∧
        execSelectAll db2 (quoteIdent "select") = some [[("select.join", Value.int 1)]] :=
  ⟨(reserved_names_quoted_roundtrip "select" [[("select.join", Value.int 1)]] []).1
      (by decide),
    (reserved_names_quoted_roundtrip "select" [[("select.join", Value.int 1)]] []).2⟩

/-- The wait policy of a row-locking clause (§4.3): block, fail
immediately, or skip locked rows. -/
inductive WaitPolicy : Type
  | wait : WaitPolicy
  | noWait : WaitPolicy
  | skipLocked : WaitPolicy
deriving DecidableEq, Repr

/-- The outcome of a `first` on a `FOR UPDATE` select: a row, a block on
another transaction's lock, the `could not obtain lock` error, or no rows. -/
inductive LockResult : Type
  | got : Row → LockResult
  | blocked : LockResult
  | lockNotObtainable : LockResult
  | noRows : LockResult
deriving DecidableEq, Repr

/-- Modelled from the spec: the database lock manager's treatment of a
`FOR UPDATE ... first` whose matching rows (in order) may be locked by
another open transaction (§4.3, §5 — locking is delegated to the backend):
the default policy blocks until the holder's transaction ends when the first
row is locked; `NOWAIT` fails immediately with the lock error instead;
`SKIP LOCKED` silently excludes locked rows and returns the first non-locked
one. -/
def selectForUpdateFirst (rows : List Row) (locked : Row → Bool) :
    WaitPolicy → LockResult
  | .wait =>
    match rows with
    | [] => .noRows
    | r :: _ => if locked r then .blocked else .got r
  | .noWait =>
    match rows with
    | [] => .noRows
    | r :: _ => if locked r then .lockNotObtainable else .got r
  | .skipLocked =>
    match rows.filter (fun r => !locked r) with
    | [] => .noRows
    | r :: _ => .got r

/-- C9: when the first matching row is already locked by another
connection, the default policy blocks, while `no_wait()` returns the
lock-not-obtainable error instead of blocking, and `skip_locked()` silently
excludes the locked row and returns the next non-locked matching row
instead of blocking or erroring. -/
theorem for_update_wait_policies :
    ∀ (locked : Row → Bool) (r0 : Row) (rest : List Row),
      locked r0 = true →
      selectForUpdateFirst (r0 :: rest) locked .wait = .blocked
      ∧ (selectForUpdateFirst (r0 :: rest) locked .noWait = .lockNotObtainable
        ∧ selectForUpdateFirst (r0 :: rest) locked .noWait ≠ .blocked)
      ∧ (∀ r1 rest2, rest.filter (fun r => !locked r) = r1 :: rest2 →
          selectForUpdateFirst (r0 :: rest) locked .skipLocked = .got r1
          ∧ selectForUpdateFirst (r0 :: rest) locked .skipLocked ≠ .blocked
          ∧ selectForUpdateFirst (r0 :: rest) locked .skipLocked ≠ .lockNotObtainable) := by
  intro locked r0 rest h0
  refine ⟨?_, ⟨?_, ?_⟩, fun r1 rest2 hf => ⟨?_, ?_, ?_⟩⟩
  · simp [selectForUpdateFirst, h0]
  · simp [selectForUpdateFirst, h0]
  · simp [selectForUpdateFirst, h0]
  · simp [selectForUpdateFirst, h0, hf]
  · simp [selectForUpdateFirst, h0, hf]
  · simp [selectForUpdateFirst, h0, hf]

/-- Witness for C9 on the test's scenario: "Sean" (the first row in order)
is locked by another transaction; `no_wait` errors, `skip_locked` returns
"Tess". -/
theorem for_update_wait_policies_witness :
    selectForUpdateFirst
        [[("users.name", Value.str "Sean")], [("users.name", Value.str "Tess")]]
        (fun r => r = [("users.name", Value.str "Sean")]) .wait = .blocked
    ∧ (selectForUpdateFirst
          [[("users.name", Value.str "Sean")], [("users.name", Value.str "Tess")]]
          (fun r => r = [("users.name", Value.str "Sean")]) .noWait = .lockNotObtainable
        ∧ selectForUpdateFirst
            [[("users.name", Value.str "Sean")], [("users.name", Value.str "Tess")]]
            (fun r => r = [("users.name", Value.str "Sean")]) .noWait ≠ .blocked)
    ∧ (selectForUpdateFirst
          [[("users.name", Value.str "Sean")], [("users.name", Value.str "Tess")]]
          (fun r => r = [("users.name", Value.str "Sean")]) .skipLocked =
            .got [("users.name", Value.str "Tess")]
        ∧ selectForUpdateFirst
            [[("users.name", Value.str "Sean")], [("users.name", Value.str "Tess")]]
            (fun r => r = [("users.name", Value.str "Sean")]) .skipLocked ≠ .blocked
        ∧ selectForUpdateFirst
            [[("users.name", Value.str "Sean")], [("users.name", Value.str "Tess")]]
            (fun r => r = [("users.name", Value.str "Sean")]) .skipLocked ≠
              .lockNotObtainable) :=
  have h := for_update_wait_policies
    (fun r => r = [("users.name", Value.str "Sean")])
    [("users.name", Value.str "Sean")]
    [[("users.name", Value.str "Tess")]] (by decide)
  ⟨h.1, h.2.1, h.2.2 [("users.name", Value.str "Tess")] [] (by decide)⟩

end Diesel
